import Mathlib

/-!
Verification of the clustering engine of the `lidar_motion_detection` package
(header: `include/lidar_motion_detection/processing/clustering.h`).

The repository snapshot contains only the class declaration; the bodies of
`performClustering`, `voxelClustering`, `growCluster`, `inducePointClusters`,
`applyClusterLevelFilters` and `setClusterLevelDynamicFlagOfallPoints` are
modelled from the specification's data model (§3) and component design (§4).

The two-level sparse voxel grid (block index, local voxel index) is embedded as
an association list from composite voxel keys to voxel records; neighbor
enumeration is an explicit parameter, since the adjacency relation is left open
by the spec (§9).
-/

namespace MotionDetection

/-- Block coordinate in the 3D integer lattice. -/
abbrev BlockIndex := Int × Int × Int

/-- Local voxel coordinate within a block. -/
abbrev VoxelIndex := Int × Int × Int

/-- Composite voxel identifier: (block coordinate, local voxel coordinate).
Structural equality, usable as a hash key. -/
abbrev VoxelKey := BlockIndex × VoxelIndex

/-- Modelled from the spec: per-voxel state of the externally owned voxel grid
(§3 `VoxelRecord`): occupancy this frame, ever-free history, the `processed`
scratch flag, the `dynamic` output flag, and the last frame that touched the
voxel. -/
structure VoxelRecord where
  occupied_this_frame : Bool
  ever_free : Bool
  processed : Bool
  dynamic : Bool
  last_update_frame : Int
  deriving DecidableEq, Repr

/-- Modelled from the spec: the sparse voxel grid, an association list from
voxel key to voxel record; keys absent from the list are unallocated voxels
(§9: sparse hash-keyed grid instead of dense array). -/
abbrev Grid := List (VoxelKey × VoxelRecord)

/-- Look up the record of a voxel key; `none` when the voxel is unallocated. -/
def gridGet (g : Grid) (k : VoxelKey) : Option VoxelRecord :=
  match g with
  | [] => none
  | (k0, r) :: rest => if k0 = k then some r else gridGet rest k

/-- Mark a record as absorbed into a cluster: `processed := true`,
`dynamic := true`; every other field is untouched. -/
def markVoxel (r : VoxelRecord) : VoxelRecord :=
  { r with processed := true, dynamic := true }

/-- Set the `processed`/`dynamic` flags of the voxel at key `k` in place. -/
def gridMark (g : Grid) (k : VoxelKey) : Grid :=
  g.map (fun p => if p.1 = k then (p.1, markVoxel p.2) else p)

/-- Modelled from the spec: temporal gate for neighbor admission (§4.1): a
neighbor is eligible only if its `last_update_frame` equals the current frame
counter; unallocated neighbors carry no point evidence and fail the gate. -/
def passesGate (g : Grid) (frame_counter : Int) (k : VoxelKey) : Bool :=
  match gridGet g k with
  | some r => decide (r.last_update_frame = frame_counter)
  | none => false

/-- Modelled from the spec: the frontier-driven region growing loop of
`Clustering::growCluster` (§4.1), with a FIFO frontier (deterministic
traversal, §9). Pop a voxel; skip it when unallocated (§7: silent skip) or
already `processed`; otherwise mark it `processed` and `dynamic`, append it to
the cluster, and — only when it is ever-free — push those neighbors that pass
the temporal gate. `fuel` bounds the number of pops; `growClusterFuel`
provides enough for the traversal to run to completion. -/
def growClusterAux (nbrs : VoxelKey → List VoxelKey) (frame_counter : Int) :
    Nat → Grid → List VoxelKey → List VoxelKey → Grid × List VoxelKey
  | 0, g, _, acc => (g, acc)
  | _ + 1, g, [], acc => (g, acc)
  | fuel + 1, g, v :: rest, acc =>
    match gridGet g v with
    | none => growClusterAux nbrs frame_counter fuel g rest acc
    | some r =>
      if r.processed then growClusterAux nbrs frame_counter fuel g rest acc
      else
        let g2 := gridMark g v
        let frontier :=
          if r.ever_free then rest ++ (nbrs v).filter (passesGate g2 frame_counter)
          else rest
        growClusterAux nbrs frame_counter fuel g2 frontier (acc ++ [v])

/-- Fuel sufficient for `growClusterAux` starting from a single seed: each
allocated voxel is processed at most once and pushes at most `maxNbrs`
neighbors, so the number of pops is at most `1 + length * maxNbrs`. -/
def growClusterFuel (nbrs : VoxelKey → List VoxelKey) (g : Grid) : Nat :=
  g.length * g.foldr (fun p m => max (nbrs p.1).length m) 0 + g.length + 1

/-- Modelled from the spec: `Clustering::growCluster` (§4.1) — grow a single
cluster from a seed voxel key; returns the updated grid and the voxel keys of
the cluster in traversal order. -/
def growCluster (nbrs : VoxelKey → List VoxelKey) (g : Grid) (seed : VoxelKey)
    (frame_counter : Int) : Grid × List VoxelKey :=
  growClusterAux nbrs frame_counter (growClusterFuel nbrs g) g [seed] []

/-- Modelled from the spec: `Clustering::voxelClustering` (§4.1) — iterate the
seed list in order; a seed that is unallocated (§7: silent skip) or already
consumed by an earlier seed's growth is skipped, every other seed grows one
cluster that is appended to the output. -/
def voxelClustering (nbrs : VoxelKey → List VoxelKey) (g : Grid)
    (seeds : List VoxelKey) (frame_counter : Int) :
    Grid × List (List VoxelKey) :=
  match seeds with
  | [] => (g, [])
  | s :: rest =>
    match gridGet g s with
    | none => voxelClustering nbrs g rest frame_counter
    | some r =>
      if r.processed then voxelClustering nbrs g rest frame_counter
      else
        let res := growCluster nbrs g s frame_counter
        let res2 := voxelClustering nbrs res.1 rest frame_counter
        (res2.1, res.2 :: res2.2)

/-- A point-level cluster: the ordered list of indices into the frame's point
cloud judged to belong to one moving object (§3 `Cluster`). -/
abbrev Cluster := List Nat

/-- The ordered collection of clusters produced for one frame. -/
abbrev Clusters := List Cluster

/-- Modelled from the spec: the block-to-index map handed over by the
preprocessing collaborator (§6): block key to a dense slot of the blockwise
voxel-to-point vector. -/
abbrev BlockToIndex := List (BlockIndex × Nat)

/-- Modelled from the spec: the per-block voxel-to-point maps (§6): for each
block slot, a map from local voxel index to the point indices that fell inside
that voxel this frame. -/
abbrev BlockwiseVoxelMap := List (List (VoxelIndex × List Nat))

/-- Generic association-list lookup used for both index maps. -/
def alookup {α β : Type} [DecidableEq α] : List (α × β) → α → Option β
  | [], _ => none
  | (a, b) :: rest, x => if a = x then some b else alookup rest x

/-- Modelled from the spec: the point indices contained in one voxel (§4.2):
resolve the owning block via the block-to-index map, then look up the local
voxel in that block's voxel-to-point map; any missing entry contributes zero
points (§7: defensive silent skip). -/
def voxelPoints (block2index : BlockToIndex) (voxel_maps : BlockwiseVoxelMap)
    (k : VoxelKey) : List Nat :=
  match alookup block2index k.1 with
  | none => []
  | some i =>
    match voxel_maps[i]? with
    | none => []
    | some m => (alookup m k.2).getD []

/-- Modelled from the spec: `Clustering::inducePointClusters` (§4.2) — map each
voxel-level cluster to the point-level cluster obtained by concatenating the
point lists of its voxels. -/
def inducePointClusters (block2index : BlockToIndex)
    (voxel_maps : BlockwiseVoxelMap)
    (voxel_cluster_ind : List (List VoxelKey)) : Clusters :=
  voxel_cluster_ind.map (fun vc => (vc.map (voxelPoints block2index voxel_maps)).flatten)

/-- Configuration of the clustering engine; defaults from the header
(`clustering.h`, lines 29-30). -/
structure Config where
  min_cluster_size : Int := 20
  max_cluster_size : Int := 20000
  deriving DecidableEq, Repr

/-- Modelled from the spec: `Clustering::applyClusterLevelFilters` (§4.3) —
keep exactly the clusters whose point count lies between the configured
minimum and maximum, both bounds inclusive. -/
def applyClusterLevelFilters (config : Config) (candidates : Clusters) : Clusters :=
  candidates.filter
    (fun c =>
      decide (config.min_cluster_size ≤ (c.length : Int)) &&
      decide ((c.length : Int) ≤ config.max_cluster_size))

/-- Modelled from the spec: per-point metadata entry of `CloudInfo` (§3): the
cluster-level dynamic label set by this core plus other metadata the core
leaves untouched. -/
structure PointInfo where
  cluster_level_dynamic : Bool := false
  ever_free_level_dynamic : Bool := false
  deriving DecidableEq, Repr

/-- Parallel per-point metadata for the frame's cloud (§3 `CloudInfo`). -/
abbrev CloudInfo := List PointInfo

/-- Set the cluster-level dynamic label of point `i`; an index with no entry
leaves the metadata unchanged. -/
def setDynamicAt (info : CloudInfo) (i : Nat) : CloudInfo :=
  match info[i]? with
  | none => info
  | some p => info.set i { p with cluster_level_dynamic := true }

/-- Modelled from the spec: `Clustering::setClusterLevelDynamicFlagOfallPoints`
(§4.4) — for every point index in every surviving cluster, set its dynamic
label in the cloud info; untouched points keep their previous label. -/
def setClusterLevelDynamicFlagOfallPoints (clusters : Clusters)
    (cloud_info : CloudInfo) : CloudInfo :=
  clusters.foldl (fun info c => c.foldl setDynamicAt info) cloud_info

/-- A 3D scan point; the cloud is passed through untouched by this core. -/
abbrev Point := Int × Int × Int

/-- The frame's ordered point sequence (§3 `Cloud`). -/
abbrev Cloud := List Point

/-- Modelled from the spec: `Clustering::performClustering` (§4.5) — sequence
voxel clustering, point induction, the size filter and label propagation, and
return the surviving clusters together with the mutated grid and cloud info.
The index maps, seed list and cloud are consumed read-only. -/
def performClustering (config : Config) (nbrs : VoxelKey → List VoxelKey)
    (g : Grid) (block2index : BlockToIndex) (voxel_maps : BlockwiseVoxelMap)
    (occupied_ever_free_voxel_indices : List VoxelKey) (_cloud : Cloud)
    (cloud_info : CloudInfo) (frame_counter : Int) :
    Clusters × Grid × CloudInfo :=
  let res := voxelClustering nbrs g occupied_ever_free_voxel_indices frame_counter
  let candidates := inducePointClusters block2index voxel_maps res.2
  let clusters := applyClusterLevelFilters config candidates
  let info := setClusterLevelDynamicFlagOfallPoints clusters cloud_info
  (clusters, res.1, info)

/-! ### Grid lemmas -/

@[simp]
theorem markVoxel_processed (r : VoxelRecord) : (markVoxel r).processed = true := rfl

@[simp]
theorem markVoxel_dynamic (r : VoxelRecord) : (markVoxel r).dynamic = true := rfl

@[simp]
theorem markVoxel_ever_free (r : VoxelRecord) : (markVoxel r).ever_free = r.ever_free := rfl

@[simp]
theorem markVoxel_last_update_frame (r : VoxelRecord) :
    (markVoxel r).last_update_frame = r.last_update_frame := rfl

@[simp]
theorem markVoxel_occupied (r : VoxelRecord) :
    (markVoxel r).occupied_this_frame = r.occupied_this_frame := rfl

theorem gridGet_cons (a : VoxelKey) (b : VoxelRecord) (rest : Grid) (v : VoxelKey) :
    gridGet ((a, b) :: rest) v = if a = v then some b else gridGet rest v := rfl

theorem gridMark_cons (a : VoxelKey) (b : VoxelRecord) (rest : Grid) (k : VoxelKey) :
    gridMark ((a, b) :: rest) k =
      (if a = k then (a, markVoxel b) else (a, b)) :: gridMark rest k := by
  by_cases h : a = k
  · simp [gridMark, h]
  · simp [gridMark, h]

theorem gridGet_gridMark (g : Grid) (k v : VoxelKey) :
    gridGet (gridMark g k) v =
      if k = v then (gridGet g v).map markVoxel else gridGet g v := by
  induction g with
  | nil => simp [gridGet, gridMark]
  | cons p rest ih =>
    obtain ⟨a, b⟩ := p
    rw [gridMark_cons]
    by_cases ha : a = k
    · rw [if_pos ha]
      subst ha
      by_cases hv : a = v
      · subst hv
        rw [gridGet_cons, if_pos rfl, if_pos rfl, gridGet_cons, if_pos rfl]
        rfl
      · rw [gridGet_cons, if_neg hv, ih, gridGet_cons, if_neg hv, if_neg hv, if_neg hv]
    · rw [if_neg ha]
      by_cases hv : a = v
      · subst hv
        have hkv : ¬ (k = a) := fun h => ha h.symm
        rw [gridGet_cons, if_pos rfl, if_neg hkv, gridGet_cons, if_pos rfl]
      · rw [gridGet_cons, if_neg hv, ih, gridGet_cons, if_neg hv]

theorem gridGet_gridMark_self (g : Grid) (k : VoxelKey) :
    gridGet (gridMark g k) k = (gridGet g k).map markVoxel := by
  rw [gridGet_gridMark, if_pos rfl]

theorem gridGet_gridMark_ne (g : Grid) (k v : VoxelKey) (h : k ≠ v) :
    gridGet (gridMark g k) v = gridGet g v := by
  rw [gridGet_gridMark, if_neg h]

/-- One-step or multi-step grid evolution of a clustering pass: every voxel
either keeps its record or has an unprocessed record replaced by its marked
version. -/
def evolves (g g2 : Grid) : Prop :=
  ∀ v, gridGet g2 v = gridGet g v ∨
    ∃ r, gridGet g v = some r ∧ r.processed = false ∧ gridGet g2 v = some (markVoxel r)

theorem evolves_refl (g : Grid) : evolves g g := fun _ => Or.inl rfl

theorem evolves_trans {g g2 g3 : Grid} (h12 : evolves g g2) (h23 : evolves g2 g3) :
    evolves g g3 := by
  intro v
  rcases h23 v with h23v | ⟨r2, hr2, hp2, hr2m⟩
  · rcases h12 v with h12v | ⟨r, hr, hp, hrm⟩
    · exact Or.inl (Eq.trans h23v h12v)
    · exact Or.inr ⟨r, hr, hp, Eq.trans h23v hrm⟩
  · rcases h12 v with h12v | ⟨r, hr, hp, hrm⟩
    · rw [h12v] at hr2
      exact Or.inr ⟨r2, hr2, hp2, hr2m⟩
    · rw [hrm] at hr2
      cases hr2
      simp at hp2

theorem evolves_gridMark {g : Grid} {k : VoxelKey} {r : VoxelRecord}
    (h : gridGet g k = some r) (hp : r.processed = false) :
    evolves g (gridMark g k) := by
  intro v
  by_cases hv : k = v
  · subst hv
    exact Or.inr ⟨r, h, hp, by rw [gridGet_gridMark_self, h]; rfl⟩
  · exact Or.inl (gridGet_gridMark_ne g k v hv)

/-- A voxel already processed is frozen: its record is untouched by any
evolution step. -/
theorem evolves_processed_frozen {g g2 : Grid} (h : evolves g g2) {v : VoxelKey}
    {r : VoxelRecord} (hr : gridGet g v = some r) (hp : r.processed = true) :
    gridGet g2 v = some r := by
  rcases h v with hv | ⟨r0, hr0, hp0, hrm⟩
  · rw [hv, hr]
  · rw [hr0] at hr
    cases hr
    rw [hp] at hp0
    cases hp0

theorem evolves_none_iff {g g2 : Grid} (h : evolves g g2) (v : VoxelKey) :
    gridGet g2 v = none ↔ gridGet g v = none := by
  rcases h v with hv | ⟨r, hr, _, hrm⟩
  · rw [hv]
  · rw [hr, hrm]
    simp

/-- Evolution preserves every field except the `processed`/`dynamic` flags. -/
theorem evolves_fields {g g2 : Grid} (h : evolves g g2) {v : VoxelKey}
    {r2 : VoxelRecord} (hr2 : gridGet g2 v = some r2) :
    ∃ r, gridGet g v = some r ∧ r2.ever_free = r.ever_free ∧
      r2.last_update_frame = r.last_update_frame ∧
      r2.occupied_this_frame = r.occupied_this_frame := by
  rcases h v with hv | ⟨r, hr, _, hrm⟩
  · exact ⟨r2, hv ▸ hr2, rfl, rfl, rfl⟩
  · rw [hrm] at hr2
    cases hr2
    exact ⟨r, hr, by simp, by simp, by simp⟩

/-- The voxel's `processed` flag flips from false to true between two grid
states: the characterisation of cluster membership. -/
def flips (g g2 : Grid) (v : VoxelKey) : Prop :=
  (∃ r, gridGet g v = some r ∧ r.processed = false) ∧
  (∃ r2, gridGet g2 v = some r2 ∧ r2.processed = true)

theorem flips_not_refl {g : Grid} {v : VoxelKey} : ¬ flips g g v := by
  rintro ⟨⟨r, hr, hp⟩, ⟨r2, hr2, hp2⟩⟩
  rw [hr] at hr2
  cases hr2
  rw [hp] at hp2
  cases hp2

theorem flips_compose {g g2 g3 : Grid} (h12 : evolves g g2) (h23 : evolves g2 g3)
    (v : VoxelKey) : flips g g3 v ↔ flips g g2 v ∨ flips g2 g3 v := by
  constructor
  · rintro ⟨⟨r, hr, hp⟩, ⟨r3, hr3, hp3⟩⟩
    rcases h12 v with hv | ⟨r0, hr0, hp0, hrm⟩
    · exact Or.inr ⟨⟨r, hv ▸ hr, hp⟩, ⟨r3, hr3, hp3⟩⟩
    · exact Or.inl ⟨⟨r0, hr0, hp0⟩, ⟨markVoxel r0, hrm, rfl⟩⟩
  · rintro (⟨⟨r, hr, hp⟩, ⟨r2, hr2, hp2⟩⟩ | ⟨⟨r2, hr2, hp2⟩, ⟨r3, hr3, hp3⟩⟩)
    · exact ⟨⟨r, hr, hp⟩, ⟨r2, evolves_processed_frozen h23 hr2 hp2, hp2⟩⟩
    · refine ⟨?_, ⟨r3, hr3, hp3⟩⟩
      rcases h12 v with hv | ⟨r0, hr0, hp0, hrm⟩
      · exact ⟨r2, hv ▸ hr2, hp2⟩
      · rw [hrm] at hr2
        injection hr2 with h2
        rw [← h2] at hp2
        simp at hp2

/-! ### Step equations for the region-growing loop -/

theorem growClusterAux_zero (nbrs : VoxelKey → List VoxelKey) (fc : Int) (g : Grid)
    (fr acc : List VoxelKey) : growClusterAux nbrs fc 0 g fr acc = (g, acc) := rfl

theorem growClusterAux_nilFrontier (nbrs : VoxelKey → List VoxelKey) (fc : Int)
    (fuel : Nat) (g : Grid) (acc : List VoxelKey) :
    growClusterAux nbrs fc fuel g [] acc = (g, acc) := by
  cases fuel <;> rfl

theorem growClusterAux_absent {g : Grid} {v : VoxelKey} (h : gridGet g v = none)
    (nbrs : VoxelKey → List VoxelKey) (fc : Int) (fuel : Nat)
    (rest acc : List VoxelKey) :
    growClusterAux nbrs fc (fuel + 1) g (v :: rest) acc =
      growClusterAux nbrs fc fuel g rest acc := by
  simp only [growClusterAux]
  rw [h]

theorem growClusterAux_skip {g : Grid} {v : VoxelKey} {r : VoxelRecord}
    (h : gridGet g v = some r) (hp : r.processed = true)
    (nbrs : VoxelKey → List VoxelKey) (fc : Int) (fuel : Nat)
    (rest acc : List VoxelKey) :
    growClusterAux nbrs fc (fuel + 1) g (v :: rest) acc =
      growClusterAux nbrs fc fuel g rest acc := by
  simp only [growClusterAux]
  rw [h]
  simp [hp]

theorem growClusterAux_grow {g : Grid} {v : VoxelKey} {r : VoxelRecord}
    (h : gridGet g v = some r) (hp : r.processed = false)
    (nbrs : VoxelKey → List VoxelKey) (fc : Int) (fuel : Nat)
    (rest acc : List VoxelKey) :
    growClusterAux nbrs fc (fuel + 1) g (v :: rest) acc =
      growClusterAux nbrs fc fuel (gridMark g v)
        (if r.ever_free then rest ++ (nbrs v).filter (passesGate (gridMark g v) fc)
         else rest)
        (acc ++ [v]) := by
  simp only [growClusterAux]
  rw [h]
  simp [hp]

theorem passesGate_iff (g : Grid) (fc : Int) (k : VoxelKey) :
    passesGate g fc k = true ↔
      ∃ r, gridGet g k = some r ∧ r.last_update_frame = fc := by
  unfold passesGate
  cases h : gridGet g k with
  | none => simp
  | some r => simp

theorem gateP_gridMark (g : Grid) (k v : VoxelKey) (fc : Int) :
    (∃ r, gridGet (gridMark g k) v = some r ∧ r.last_update_frame = fc) ↔
    (∃ r, gridGet g v = some r ∧ r.last_update_frame = fc) := by
  rw [gridGet_gridMark]
  by_cases h : k = v
  · rw [if_pos h]
    constructor
    · rintro ⟨r, hr, hl⟩
      cases hg : gridGet g v with
      | none => rw [hg] at hr; cases hr
      | some r0 =>
        rw [hg] at hr
        injection hr with h2
        exact ⟨r0, rfl, by rw [← h2] at hl; simpa using hl⟩
    · rintro ⟨r, hr, hl⟩
      exact ⟨markVoxel r, by rw [hr]; rfl, by simpa using hl⟩
  · rw [if_neg h]

theorem flips_gridMark_iff {g : Grid} {k : VoxelKey} {r : VoxelRecord}
    (h : gridGet g k = some r) (hp : r.processed = false) (v : VoxelKey) :
    flips g (gridMark g k) v ↔ v = k := by
  constructor
  · rintro ⟨⟨r1, hr1, hp1⟩, ⟨r2, hr2, hp2⟩⟩
    by_contra hv
    rw [gridGet_gridMark_ne g k v (fun he => hv he.symm)] at hr2
    rw [hr1] at hr2
    injection hr2 with h2
    rw [← h2] at hp2
    rw [hp1] at hp2
    cases hp2
  · rintro rfl
    exact ⟨⟨r, h, hp⟩, ⟨markVoxel r, by rw [gridGet_gridMark_self, h]; rfl, rfl⟩⟩

/-! ### Invariants of the region-growing loop -/

theorem growClusterAux_evolves (nbrs : VoxelKey → List VoxelKey) (fc : Int) :
    ∀ (fuel : Nat) (g : Grid) (fr acc : List VoxelKey),
    evolves g (growClusterAux nbrs fc fuel g fr acc).1 := by
  intro fuel
  induction fuel with
  | zero => intro g fr acc; exact evolves_refl g
  | succ n ih =>
    intro g fr acc
    cases fr with
    | nil => rw [growClusterAux_nilFrontier]; exact evolves_refl g
    | cons v rest =>
      cases hget : gridGet g v with
      | none => rw [growClusterAux_absent hget]; exact ih g rest acc
      | some r =>
        by_cases hp : r.processed = true
        · rw [growClusterAux_skip hget hp]; exact ih g rest acc
        · have hp2 : r.processed = false := by simpa using hp
          rw [growClusterAux_grow hget hp2]
          exact evolves_trans (evolves_gridMark hget hp2) (ih _ _ _)

theorem growClusterAux_mem (nbrs : VoxelKey → List VoxelKey) (fc : Int) :
    ∀ (fuel : Nat) (g : Grid) (fr acc : List VoxelKey) (v : VoxelKey),
    v ∈ (growClusterAux nbrs fc fuel g fr acc).2 ↔
      v ∈ acc ∨ flips g (growClusterAux nbrs fc fuel g fr acc).1 v := by
  intro fuel
  induction fuel with
  | zero =>
    intro g fr acc v
    rw [growClusterAux_zero]
    exact (or_iff_left flips_not_refl).symm
  | succ n ih =>
    intro g fr acc v
    cases fr with
    | nil =>
      rw [growClusterAux_nilFrontier]
      exact (or_iff_left flips_not_refl).symm
    | cons v0 rest =>
      cases hget : gridGet g v0 with
      | none => rw [growClusterAux_absent hget]; exact ih g rest acc v
      | some r =>
        by_cases hp : r.processed = true
        · rw [growClusterAux_skip hget hp]; exact ih g rest acc v
        · have hp2 : r.processed = false := by simpa using hp
          rw [growClusterAux_grow hget hp2]
          rw [ih]
          have hev2 : evolves (gridMark g v0)
              (growClusterAux nbrs fc n (gridMark g v0)
                (if r.ever_free then
                  rest ++ (nbrs v0).filter (passesGate (gridMark g v0) fc)
                 else rest) (acc ++ [v0])).1 := growClusterAux_evolves nbrs fc n _ _ _
          rw [flips_compose (evolves_gridMark hget hp2) hev2,
            flips_gridMark_iff hget hp2]
          simp only [List.mem_append, List.mem_singleton]
          tauto

theorem growClusterAux_nodup (nbrs : VoxelKey → List VoxelKey) (fc : Int) :
    ∀ (fuel : Nat) (g : Grid) (fr acc : List VoxelKey),
    acc.Nodup →
    (∀ v ∈ acc, ∃ r, gridGet g v = some r ∧ r.processed = true) →
    (growClusterAux nbrs fc fuel g fr acc).2.Nodup := by
  intro fuel
  induction fuel with
  | zero => intro g fr acc hnd _; exact hnd
  | succ n ih =>
    intro g fr acc hnd hacc
    cases fr with
    | nil => rw [growClusterAux_nilFrontier]; exact hnd
    | cons v0 rest =>
      cases hget : gridGet g v0 with
      | none => rw [growClusterAux_absent hget]; exact ih g rest acc hnd hacc
      | some r =>
        by_cases hp : r.processed = true
        · rw [growClusterAux_skip hget hp]; exact ih g rest acc hnd hacc
        · have hp2 : r.processed = false := by simpa using hp
          rw [growClusterAux_grow hget hp2]
          have hv0 : v0 ∉ acc := by
            intro hmem
            obtain ⟨r1, hr1, hp1⟩ := hacc v0 hmem
            rw [hget] at hr1
            injection hr1 with h2
            rw [← h2] at hp1
            rw [hp2] at hp1
            cases hp1
          refine ih _ _ _ ?_ ?_
          · simp [List.nodup_append, hnd, hv0]
          · intro v hv
            rw [List.mem_append, List.mem_singleton] at hv
            rcases hv with hv | rfl
            · obtain ⟨r1, hr1, hp1⟩ := hacc v hv
              have hne : v0 ≠ v := fun he => hv0 (he ▸ hv)
              exact ⟨r1, by rw [gridGet_gridMark_ne g v0 v hne]; exact hr1, hp1⟩
            · exact ⟨markVoxel r, by rw [gridGet_gridMark_self, hget]; rfl, rfl⟩

theorem growClusterAux_gate (nbrs : VoxelKey → List VoxelKey) (fc : Int)
    (S : VoxelKey → Prop) :
    ∀ (fuel : Nat) (g : Grid) (fr acc : List VoxelKey),
    (∀ v ∈ fr, S v ∨ ∃ r, gridGet g v = some r ∧ r.last_update_frame = fc) →
    (∀ v ∈ acc, S v ∨ ∃ r, gridGet g v = some r ∧ r.last_update_frame = fc) →
    ∀ v ∈ (growClusterAux nbrs fc fuel g fr acc).2,
      S v ∨ ∃ r, gridGet g v = some r ∧ r.last_update_frame = fc := by
  intro fuel
  induction fuel with
  | zero => intro g fr acc _ hacc v hv; exact hacc v hv
  | succ n ih =>
    intro g fr acc hfr hacc
    cases fr with
    | nil =>
      rw [growClusterAux_nilFrontier]
      exact hacc
    | cons v0 rest =>
      cases hget : gridGet g v0 with
      | none =>
        rw [growClusterAux_absent hget]
        exact ih g rest acc (fun v hv => hfr v (List.mem_cons_of_mem v0 hv)) hacc
      | some r =>
        by_cases hp : r.processed = true
        · rw [growClusterAux_skip hget hp]
          exact ih g rest acc (fun v hv => hfr v (List.mem_cons_of_mem v0 hv)) hacc
        · have hp2 : r.processed = false := by simpa using hp
          rw [growClusterAux_grow hget hp2]
          intro v hv
          have hout := ih (gridMark g v0)
            (if r.ever_free then
              rest ++ (nbrs v0).filter (passesGate (gridMark g v0) fc)
             else rest) (acc ++ [v0]) ?_ ?_ v hv
          · rcases hout with hS | hgate
            · exact Or.inl hS
            · exact Or.inr ((gateP_gridMark g v0 v fc).mp hgate)
          · intro u hu
            have htail : ∀ u ∈ rest, S u ∨
                ∃ r1, gridGet (gridMark g v0) u = some r1 ∧
                  r1.last_update_frame = fc := by
              intro u hu2
              rcases hfr u (List.mem_cons_of_mem v0 hu2) with hS | hgate
              · exact Or.inl hS
              · exact Or.inr ((gateP_gridMark g v0 u fc).mpr hgate)
            by_cases hef : r.ever_free = true
            · rw [if_pos hef] at hu
              rw [List.mem_append] at hu
              rcases hu with hu | hu
              · exact htail u hu
              · rw [List.mem_filter] at hu
                exact Or.inr ((passesGate_iff _ fc u).mp hu.2)
            · rw [if_neg hef] at hu
              exact htail u hu
          · intro u hu
            rw [List.mem_append, List.mem_singleton] at hu
            rcases hu with hu | rfl
            · rcases hacc u hu with hS | hgate
              · exact Or.inl hS
              · exact Or.inr ((gateP_gridMark g v0 u fc).mpr hgate)
            · rcases hfr u (List.mem_cons_self _ _) with hS | hgate
              · exact Or.inl hS
              · exact Or.inr ((gateP_gridMark g u u fc).mpr hgate)

/-! ### Facts about `growCluster` -/

theorem growCluster_evolves (nbrs : VoxelKey → List VoxelKey) (g : Grid)
    (seed : VoxelKey) (fc : Int) : evolves g (growCluster nbrs g seed fc).1 :=
  growClusterAux_evolves nbrs fc _ g [seed] []

theorem growCluster_mem (nbrs : VoxelKey → List VoxelKey) (g : Grid)
    (seed : VoxelKey) (fc : Int) (v : VoxelKey) :
    v ∈ (growCluster nbrs g seed fc).2 ↔
      flips g (growCluster nbrs g seed fc).1 v := by
  unfold growCluster
  rw [growClusterAux_mem]
  simp

theorem growCluster_gate (nbrs : VoxelKey → List VoxelKey) (g : Grid)
    (seed : VoxelKey) (fc : Int) (v : VoxelKey)
    (hv : v ∈ (growCluster nbrs g seed fc).2) :
    v = seed ∨ ∃ r, gridGet g v = some r ∧ r.last_update_frame = fc := by
  refine growClusterAux_gate nbrs fc (fun u => u = seed) _ g [seed] [] ?_ ?_ v hv
  · intro u hu
    rw [List.mem_singleton] at hu
    exact Or.inl hu
  · intro u hu
    cases hu

theorem growCluster_nodup (nbrs : VoxelKey → List VoxelKey) (g : Grid)
    (seed : VoxelKey) (fc : Int) : (growCluster nbrs g seed fc).2.Nodup := by
  refine growClusterAux_nodup nbrs fc _ g [seed] [] List.nodup_nil ?_
  intro v hv
  cases hv

theorem growCluster_seed_mem {g : Grid} {seed : VoxelKey} {r : VoxelRecord}
    (hget : gridGet g seed = some r) (hp : r.processed = false)
    (nbrs : VoxelKey → List VoxelKey) (fc : Int) :
    seed ∈ (growCluster nbrs g seed fc).2 := by
  unfold growCluster growClusterFuel
  rw [growClusterAux_grow hget hp]
  rw [growClusterAux_mem]
  left
  simp

/-! ### Facts about `voxelClustering` -/

theorem voxelClustering_nilSeeds (nbrs : VoxelKey → List VoxelKey) (g : Grid)
    (fc : Int) : voxelClustering nbrs g [] fc = (g, []) := rfl

theorem voxelClustering_absent {g : Grid} {s : VoxelKey} (h : gridGet g s = none)
    (nbrs : VoxelKey → List VoxelKey) (rest : List VoxelKey) (fc : Int) :
    voxelClustering nbrs g (s :: rest) fc = voxelClustering nbrs g rest fc := by
  simp only [voxelClustering]
  rw [h]

theorem voxelClustering_skip {g : Grid} {s : VoxelKey} {r : VoxelRecord}
    (h : gridGet g s = some r) (hp : r.processed = true)
    (nbrs : VoxelKey → List VoxelKey) (rest : List VoxelKey) (fc : Int) :
    voxelClustering nbrs g (s :: rest) fc = voxelClustering nbrs g rest fc := by
  simp only [voxelClustering]
  rw [h]
  simp [hp]

theorem voxelClustering_grow {g : Grid} {s : VoxelKey} {r : VoxelRecord}
    (h : gridGet g s = some r) (hp : r.processed = false)
    (nbrs : VoxelKey → List VoxelKey) (rest : List VoxelKey) (fc : Int) :
    voxelClustering nbrs g (s :: rest) fc =
      ((voxelClustering nbrs (growCluster nbrs g s fc).1 rest fc).1,
       (growCluster nbrs g s fc).2 ::
         (voxelClustering nbrs (growCluster nbrs g s fc).1 rest fc).2) := by
  simp only [voxelClustering]
  rw [h]
  simp [hp]

theorem voxelClustering_evolves (nbrs : VoxelKey → List VoxelKey) (fc : Int) :
    ∀ (seeds : List VoxelKey) (g : Grid),
    evolves g (voxelClustering nbrs g seeds fc).1 := by
  intro seeds
  induction seeds with
  | nil => intro g; exact evolves_refl g
  | cons s rest ih =>
    intro g
    cases hget : gridGet g s with
    | none => rw [voxelClustering_absent hget]; exact ih g
    | some r =>
      by_cases hp : r.processed = true
      · rw [voxelClustering_skip hget hp]; exact ih g
      · have hp2 : r.processed = false := by simpa using hp
        rw [voxelClustering_grow hget hp2]
        exact evolves_trans (growCluster_evolves nbrs g s fc) (ih _)

theorem evolves_gateP {g g2 : Grid} (h : evolves g g2) (v : VoxelKey) (fc : Int) :
    (∃ r, gridGet g2 v = some r ∧ r.last_update_frame = fc) ↔
    (∃ r, gridGet g v = some r ∧ r.last_update_frame = fc) := by
  rcases h v with hv | ⟨r, hr, _, hrm⟩
  · rw [hv]
  · rw [hrm, hr]
    constructor
    · rintro ⟨r2, hr2, hl⟩
      injection hr2 with h2
      exact ⟨r, rfl, by rw [← h2] at hl; simpa using hl⟩
    · rintro ⟨r2, hr2, hl⟩
      injection hr2 with h2
      exact ⟨markVoxel r, rfl, by rw [← h2] at hl; simpa using hl⟩

theorem voxelClustering_mem (nbrs : VoxelKey → List VoxelKey) (fc : Int) :
    ∀ (seeds : List VoxelKey) (g : Grid) (v : VoxelKey),
    v ∈ (voxelClustering nbrs g seeds fc).2.flatten ↔
      flips g (voxelClustering nbrs g seeds fc).1 v := by
  intro seeds
  induction seeds with
  | nil =>
    intro g v
    rw [voxelClustering_nilSeeds]
    simp only [List.flatten_nil, List.not_mem_nil, false_iff]
    exact flips_not_refl
  | cons s rest ih =>
    intro g v
    cases hget : gridGet g s with
    | none => rw [voxelClustering_absent hget]; exact ih g v
    | some r =>
      by_cases hp : r.processed = true
      · rw [voxelClustering_skip hget hp]; exact ih g v
      · have hp2 : r.processed = false := by simpa using hp
        rw [voxelClustering_grow hget hp2]
        simp only [List.flatten_cons, List.mem_append]
        rw [growCluster_mem, ih]
        exact (flips_compose (growCluster_evolves nbrs g s fc)
          (voxelClustering_evolves nbrs fc rest _) v).symm

theorem voxelClustering_pairwise (nbrs : VoxelKey → List VoxelKey) (fc : Int) :
    ∀ (seeds : List VoxelKey) (g : Grid),
    List.Pairwise List.Disjoint (voxelClustering nbrs g seeds fc).2 ∧
    ∀ c ∈ (voxelClustering nbrs g seeds fc).2, ∀ v ∈ c,
      flips g (voxelClustering nbrs g seeds fc).1 v := by
  intro seeds
  induction seeds with
  | nil =>
    intro g
    refine ⟨List.Pairwise.nil, ?_⟩
    intro c hc
    cases hc
  | cons s rest ih =>
    intro g
    cases hget : gridGet g s with
    | none => rw [voxelClustering_absent hget]; exact ih g
    | some r =>
      by_cases hp : r.processed = true
      · rw [voxelClustering_skip hget hp]; exact ih g
      · have hp2 : r.processed = false := by simpa using hp
        rw [voxelClustering_grow hget hp2]
        obtain ⟨ihp, ihf⟩ := ih (growCluster nbrs g s fc).1
        have hev1 : evolves g (growCluster nbrs g s fc).1 :=
          growCluster_evolves nbrs g s fc
        have hev2 : evolves (growCluster nbrs g s fc).1
            (voxelClustering nbrs (growCluster nbrs g s fc).1 rest fc).1 :=
          voxelClustering_evolves nbrs fc rest _
        constructor
        · rw [List.pairwise_cons]
          refine ⟨?_, ihp⟩
          intro c2 hc2 v hv hv2
          have h1 : flips g (growCluster nbrs g s fc).1 v :=
            (growCluster_mem nbrs g s fc v).mp hv
          have h2 : flips (growCluster nbrs g s fc).1
              (voxelClustering nbrs (growCluster nbrs g s fc).1 rest fc).1 v :=
            ihf c2 hc2 v hv2
          obtain ⟨_, ⟨r2, hr2, hp2m⟩⟩ := h1
          obtain ⟨⟨r1, hr1, hp1m⟩, _⟩ := h2
          rw [hr2] at hr1
          injection hr1 with hre
          rw [← hre] at hp1m
          rw [hp2m] at hp1m
          cases hp1m
        · intro c hc v hv
          rcases List.mem_cons.mp hc with rfl | hc2
          · exact (flips_compose hev1 hev2 v).mpr
              (Or.inl ((growCluster_mem nbrs g s fc v).mp hv))
          · exact (flips_compose hev1 hev2 v).mpr (Or.inr (ihf c hc2 v hv))

theorem voxelClustering_each_nodup (nbrs : VoxelKey → List VoxelKey) (fc : Int) :
    ∀ (seeds : List VoxelKey) (g : Grid),
    ∀ c ∈ (voxelClustering nbrs g seeds fc).2, c.Nodup := by
  intro seeds
  induction seeds with
  | nil =>
    intro g c hc
    cases hc
  | cons s rest ih =>
    intro g c hc
    cases hget : gridGet g s with
    | none => rw [voxelClustering_absent hget] at hc; exact ih g c hc
    | some r =>
      by_cases hp : r.processed = true
      · rw [voxelClustering_skip hget hp] at hc; exact ih g c hc
      · have hp2 : r.processed = false := by simpa using hp
        rw [voxelClustering_grow hget hp2] at hc
        rcases List.mem_cons.mp hc with rfl | hc2
        · exact growCluster_nodup nbrs g s fc
        · exact ih _ c hc2

theorem voxelClustering_nonempty (nbrs : VoxelKey → List VoxelKey) (fc : Int) :
    ∀ (seeds : List VoxelKey) (g : Grid),
    ∀ c ∈ (voxelClustering nbrs g seeds fc).2, c ≠ [] := by
  intro seeds
  induction seeds with
  | nil =>
    intro g c hc
    cases hc
  | cons s rest ih =>
    intro g c hc
    cases hget : gridGet g s with
    | none => rw [voxelClustering_absent hget] at hc; exact ih g c hc
    | some r =>
      by_cases hp : r.processed = true
      · rw [voxelClustering_skip hget hp] at hc; exact ih g c hc
      · have hp2 : r.processed = false := by simpa using hp
        rw [voxelClustering_grow hget hp2] at hc
        rcases List.mem_cons.mp hc with rfl | hc2
        · intro hnil
          have := growCluster_seed_mem hget hp2 nbrs fc
          rw [hnil] at this
          cases this
        · exact ih _ c hc2

theorem voxelClustering_seed_processed (nbrs : VoxelKey → List VoxelKey) (fc : Int) :
    ∀ (seeds : List VoxelKey) (g : Grid) (s : VoxelKey) (r : VoxelRecord),
    s ∈ seeds → gridGet g s = some r →
    ∃ r2, gridGet (voxelClustering nbrs g seeds fc).1 s = some r2 ∧
      r2.processed = true := by
  intro seeds
  induction seeds with
  | nil =>
    intro g s r hs
    cases hs
  | cons s0 rest ih =>
    intro g s r hs hget
    rcases List.mem_cons.mp hs with rfl | hs2
    · cases hget0 : gridGet g s with
      | none => rw [hget0] at hget; cases hget
      | some r0 =>
        by_cases hp : r0.processed = true
        · rw [voxelClustering_skip hget0 hp]
          exact ⟨r0, evolves_processed_frozen
            (voxelClustering_evolves nbrs fc rest g) hget0 hp, hp⟩
        · have hp2 : r0.processed = false := by simpa using hp
          rw [voxelClustering_grow hget0 hp2]
          have hmem := growCluster_seed_mem hget0 hp2 nbrs fc
          have hflip := (growCluster_mem nbrs g s fc s).mp hmem
          obtain ⟨_, ⟨r1, hr1, hp1⟩⟩ := hflip
          exact ⟨r1, evolves_processed_frozen
            (voxelClustering_evolves nbrs fc rest _) hr1 hp1, hp1⟩
    · cases hget0 : gridGet g s0 with
      | none => rw [voxelClustering_absent hget0]; exact ih g s r hs2 hget
      | some r0 =>
        by_cases hp : r0.processed = true
        · rw [voxelClustering_skip hget0 hp]; exact ih g s r hs2 hget
        · have hp2 : r0.processed = false := by simpa using hp
          rw [voxelClustering_grow hget0 hp2]
          rcases growCluster_evolves nbrs g s0 fc s with hv | ⟨r1, hr1, _, hrm⟩
          · rw [hget] at hv
            exact ih _ s r hs2 hv
          · exact ih _ s (markVoxel r1) hs2 hrm

theorem voxelClustering_gate (nbrs : VoxelKey → List VoxelKey) (fc : Int) :
    ∀ (seeds : List VoxelKey) (g : Grid) (v : VoxelKey),
    v ∈ (voxelClustering nbrs g seeds fc).2.flatten →
    v ∈ seeds ∨ ∃ r, gridGet g v = some r ∧ r.last_update_frame = fc := by
  intro seeds
  induction seeds with
  | nil =>
    intro g v hv
    rw [voxelClustering_nilSeeds] at hv
    cases hv
  | cons s rest ih =>
    intro g v hv
    cases hget : gridGet g s with
    | none =>
      rw [voxelClustering_absent hget] at hv
      rcases ih g v hv with h | h
      · exact Or.inl (List.mem_cons_of_mem s h)
      · exact Or.inr h
    | some r =>
      by_cases hp : r.processed = true
      · rw [voxelClustering_skip hget hp] at hv
        rcases ih g v hv with h | h
        · exact Or.inl (List.mem_cons_of_mem s h)
        · exact Or.inr h
      · have hp2 : r.processed = false := by simpa using hp
        rw [voxelClustering_grow hget hp2] at hv
        simp only [List.flatten_cons, List.mem_append] at hv
        rcases hv with hv | hv
        · rcases growCluster_gate nbrs g s fc v hv with rfl | h
          · exact Or.inl (List.mem_cons_self _ _)
          · exact Or.inr h
        · rcases ih _ v hv with h | h
          · exact Or.inl (List.mem_cons_of_mem s h)
          · exact Or.inr ((evolves_gateP (growCluster_evolves nbrs g s fc) v fc).mp h)

/-! ### Facts about point induction, the size filter and label propagation -/

theorem inducePointClusters_length (block2index : BlockToIndex)
    (voxel_maps : BlockwiseVoxelMap) (vcs : List (List VoxelKey)) :
    (inducePointClusters block2index voxel_maps vcs).length = vcs.length :=
  List.length_map _ _

theorem mem_inducePointClusters (block2index : BlockToIndex)
    (voxel_maps : BlockwiseVoxelMap) (vc : List VoxelKey) (p : Nat) :
    (p ∈ (vc.map (voxelPoints block2index voxel_maps)).flatten ↔
      ∃ k ∈ vc, p ∈ voxelPoints block2index voxel_maps k) := by
  rw [List.mem_flatten]
  constructor
  · rintro ⟨l, hl, hp⟩
    obtain ⟨k, hk, rfl⟩ := List.mem_map.mp hl
    exact ⟨k, hk, hp⟩
  · rintro ⟨k, hk, hp⟩
    exact ⟨voxelPoints block2index voxel_maps k, List.mem_map.mpr ⟨k, hk, rfl⟩, hp⟩

theorem voxelPoints_no_block (block2index : BlockToIndex)
    (voxel_maps : BlockwiseVoxelMap) (k : VoxelKey)
    (h : alookup block2index k.1 = none) :
    voxelPoints block2index voxel_maps k = [] := by
  unfold voxelPoints
  rw [h]

theorem voxelPoints_no_voxel (block2index : BlockToIndex)
    (voxel_maps : BlockwiseVoxelMap) (k : VoxelKey) (i : Nat)
    (m : List (VoxelIndex × List Nat))
    (hb : alookup block2index k.1 = some i) (hm : voxel_maps[i]? = some m)
    (hv : alookup m k.2 = none) :
    voxelPoints block2index voxel_maps k = [] := by
  unfold voxelPoints
  rw [hb]
  simp [hm, hv]

theorem mem_applyClusterLevelFilters_iff (config : Config) (candidates : Clusters)
    (c : Cluster) :
    c ∈ applyClusterLevelFilters config candidates ↔
      c ∈ candidates ∧ config.min_cluster_size ≤ (c.length : Int) ∧
        (c.length : Int) ≤ config.max_cluster_size := by
  unfold applyClusterLevelFilters
  rw [List.mem_filter]
  simp [and_assoc]

theorem setDynamicAt_length (info : CloudInfo) (j : Nat) :
    (setDynamicAt info j).length = info.length := by
  unfold setDynamicAt
  cases h : info[j]? with
  | none => rfl
  | some p => exact List.length_set info j _

theorem setDynamicAt_getElem (info : CloudInfo) (j i : Nat) :
    (setDynamicAt info j)[i]? =
      if j = i then
        (info[i]?).map (fun p => { p with cluster_level_dynamic := true })
      else info[i]? := by
  unfold setDynamicAt
  cases hj : info[j]? with
  | none =>
    by_cases h : j = i
    · subst h
      rw [if_pos rfl, hj]
      rfl
    · rw [if_neg h]
  | some q =>
    rw [List.getElem?_set]
    obtain ⟨hlt, _⟩ := List.getElem?_eq_some.mp hj
    by_cases h : j = i
    · subst h
      rw [if_pos rfl, if_pos rfl, if_pos hlt, hj]
      rfl
    · rw [if_neg h, if_neg h]

theorem foldl_setDynamicAt_getElem (c : Cluster) :
    ∀ (info : CloudInfo) (i : Nat),
    (c.foldl setDynamicAt info)[i]? =
      if i ∈ c then
        (info[i]?).map (fun p => { p with cluster_level_dynamic := true })
      else info[i]? := by
  induction c with
  | nil => intro info i; simp
  | cons j rest ih =>
    intro info i
    rw [List.foldl_cons, ih, setDynamicAt_getElem]
    by_cases hj : j = i
    · subst hj
      rw [if_pos rfl, if_pos (List.mem_cons_self _ _)]
      by_cases hr : j ∈ rest
      · rw [if_pos hr]
        cases info[j]? with
        | none => rfl
        | some p => rfl
      · rw [if_neg hr]
    · rw [if_neg hj]
      by_cases hr : i ∈ rest
      · rw [if_pos hr, if_pos (List.mem_cons_of_mem j hr)]
      · rw [if_neg hr, if_neg ?_]
        intro hmem
        rcases List.mem_cons.mp hmem with he | hm
        · exact hj he.symm
        · exact hr hm

theorem foldl_setDynamicAt_length (c : Cluster) :
    ∀ (info : CloudInfo), (c.foldl setDynamicAt info).length = info.length := by
  induction c with
  | nil => intro info; rfl
  | cons j rest ih =>
    intro info
    rw [List.foldl_cons, ih, setDynamicAt_length]

theorem setFlags_getElem (clusters : Clusters) :
    ∀ (info : CloudInfo) (i : Nat),
    (setClusterLevelDynamicFlagOfallPoints clusters info)[i]? =
      if ∃ c ∈ clusters, i ∈ c then
        (info[i]?).map (fun p => { p with cluster_level_dynamic := true })
      else info[i]? := by
  induction clusters with
  | nil =>
    intro info i
    simp [setClusterLevelDynamicFlagOfallPoints]
  | cons c rest ih =>
    intro info i
    have hstep : setClusterLevelDynamicFlagOfallPoints (c :: rest) info =
        setClusterLevelDynamicFlagOfallPoints rest (c.foldl setDynamicAt info) := rfl
    rw [hstep, ih, foldl_setDynamicAt_getElem]
    rw [if_congr (List.exists_mem_cons_iff (fun c2 => i ∈ c2) c rest) rfl rfl]
    by_cases hc : i ∈ c
    · by_cases hr : ∃ c2 ∈ rest, i ∈ c2
      · rw [if_pos hr, if_pos hc, if_pos (Or.inl hc)]
        cases info[i]? with
        | none => rfl
        | some p => rfl
      · rw [if_neg hr, if_pos hc, if_pos (Or.inl hc)]
    · by_cases hr : ∃ c2 ∈ rest, i ∈ c2
      · rw [if_pos hr, if_neg hc, if_pos (Or.inr hr)]
      · rw [if_neg hr, if_neg hc, if_neg ?_]
        intro h
        rcases h with h | h
        · exact hc h
        · exact hr h

theorem setFlags_length (clusters : Clusters) :
    ∀ (info : CloudInfo),
    (setClusterLevelDynamicFlagOfallPoints clusters info).length = info.length := by
  induction clusters with
  | nil => intro info; rfl
  | cons c rest ih =>
    intro info
    have hstep : setClusterLevelDynamicFlagOfallPoints (c :: rest) info =
        setClusterLevelDynamicFlagOfallPoints rest (c.foldl setDynamicAt info) := rfl
    rw [hstep, ih, foldl_setDynamicAt_length]

theorem performClustering_eq (config : Config) (nbrs : VoxelKey → List VoxelKey)
    (g : Grid) (block2index : BlockToIndex) (voxel_maps : BlockwiseVoxelMap)
    (seeds : List VoxelKey) (cloud : Cloud) (info : CloudInfo) (fc : Int) :
    performClustering config nbrs g block2index voxel_maps seeds cloud info fc =
      (applyClusterLevelFilters config (inducePointClusters block2index voxel_maps
        (voxelClustering nbrs g seeds fc).2),
       (voxelClustering nbrs g seeds fc).1,
       setClusterLevelDynamicFlagOfallPoints
         (applyClusterLevelFilters config (inducePointClusters block2index voxel_maps
           (voxelClustering nbrs g seeds fc).2)) info) := rfl

theorem gridGet_mem {g : Grid} {v : VoxelKey} {r : VoxelRecord}
    (h : gridGet g v = some r) : (v, r) ∈ g := by
  induction g with
  | nil => cases h
  | cons p rest ih =>
    obtain ⟨a, b⟩ := p
    rw [gridGet_cons] at h
    by_cases ha : a = v
    · rw [if_pos ha] at h
      injection h with h2
      rw [← ha, ← h2]
      exact List.mem_cons_self _ _
    · rw [if_neg ha] at h
      exact List.mem_cons_of_mem _ (ih h)

/-- Mirror of the `Clustering` class state: the configuration fixed at
construction (`const Config config_`). Every member function of the class is
`const`; the method wrappers below return the object state after the call
alongside the result. -/
structure Clustering where
  config : Config

def Clustering.performClustering (self : Clustering)
    (nbrs : VoxelKey → List VoxelKey) (g : Grid) (block2index : BlockToIndex)
    (voxel_maps : BlockwiseVoxelMap) (seeds : List VoxelKey) (cloud : Cloud)
    (info : CloudInfo) (fc : Int) : Clustering × (Clusters × Grid × CloudInfo) :=
  (self, MotionDetection.performClustering self.config nbrs g block2index
    voxel_maps seeds cloud info fc)

def Clustering.voxelClustering (self : Clustering)
    (nbrs : VoxelKey → List VoxelKey) (g : Grid) (seeds : List VoxelKey)
    (fc : Int) : Clustering × (Grid × List (List VoxelKey)) :=
  (self, MotionDetection.voxelClustering nbrs g seeds fc)

def Clustering.growCluster (self : Clustering) (nbrs : VoxelKey → List VoxelKey)
    (g : Grid) (seed : VoxelKey) (fc : Int) :
    Clustering × (Grid × List VoxelKey) :=
  (self, MotionDetection.growCluster nbrs g seed fc)

def Clustering.inducePointClusters (self : Clustering)
    (block2index : BlockToIndex) (voxel_maps : BlockwiseVoxelMap)
    (voxel_cluster_ind : List (List VoxelKey)) : Clustering × Clusters :=
  (self, MotionDetection.inducePointClusters block2index voxel_maps
    voxel_cluster_ind)

def Clustering.applyClusterLevelFilters (self : Clustering)
    (candidates : Clusters) : Clustering × Clusters :=
  (self, MotionDetection.applyClusterLevelFilters self.config candidates)

def Clustering.setClusterLevelDynamicFlagOfallPoints (self : Clustering)
    (clusters : Clusters) (info : CloudInfo) : Clustering × CloudInfo :=
  (self, MotionDetection.setClusterLevelDynamicFlagOfallPoints clusters info)

/-! ### Claim theorems -/

/-- Claim C1: under the documented contract (the `processed` scratch flags are
reset before the pass, every seed is allocated, and the seed list contains
every allocated occupied ever-free voxel), the clusters returned by
`voxelClustering` are pairwise voxel-disjoint; every clustered voxel is a seed
or an absorbed non-ever-free boundary voxel; every seed is covered by the
union; and a seed consumed by an earlier seed's growth produces no duplicate
(in particular no empty) cluster. -/
theorem claim_C1_voxelClustering_disjoint_cover
    (nbrs : VoxelKey → List VoxelKey) (g : Grid) (seeds : List VoxelKey)
    (fc : Int)
    (h_reset : ∀ p ∈ g, (p : VoxelKey × VoxelRecord).2.processed = false)
    (h_alloc : ∀ s ∈ seeds, (gridGet g s).isSome = true)
    (h_seeds : ∀ p ∈ g, (p : VoxelKey × VoxelRecord).2.ever_free = true →
      p.2.last_update_frame = fc → p.1 ∈ seeds) :
    List.Pairwise List.Disjoint (voxelClustering nbrs g seeds fc).2 ∧
    (∀ v ∈ (voxelClustering nbrs g seeds fc).2.flatten,
      v ∈ seeds ∨ ∃ r, gridGet g v = some r ∧ r.ever_free = false) ∧
    (∀ s ∈ seeds, s ∈ (voxelClustering nbrs g seeds fc).2.flatten) ∧
    (∀ c ∈ (voxelClustering nbrs g seeds fc).2, c ≠ []) := by
  refine ⟨(voxelClustering_pairwise nbrs fc seeds g).1, ?_, ?_,
    voxelClustering_nonempty nbrs fc seeds g⟩
  · intro v hv
    rcases voxelClustering_gate nbrs fc seeds g v hv with h | ⟨r, hr, hlu⟩
    · exact Or.inl h
    · by_cases hef : r.ever_free = true
      · exact Or.inl (h_seeds (v, r) (gridGet_mem hr) hef hlu)
      · exact Or.inr ⟨r, hr, by simpa using hef⟩
  · intro s hs
    obtain ⟨r, hr⟩ := Option.isSome_iff_exists.mp (h_alloc s hs)
    have hp : r.processed = false := h_reset (s, r) (gridGet_mem hr)
    obtain ⟨r2, hr2, hp2⟩ :=
      voxelClustering_seed_processed nbrs fc seeds g s r hs hr
    exact (voxelClustering_mem nbrs fc seeds g s).mpr ⟨⟨r, hr, hp⟩, ⟨r2, hr2, hp2⟩⟩

/-- Claim C2: growth does not continue past a non-ever-free member. A seed
whose only neighbor is a single non-ever-free voxel meeting the frame gate,
itself surrounded only by voxels that are non-ever-free or not updated this
frame, grows the cluster exactly `[seed, n]`. -/
theorem claim_C2_propagation_asymmetry
    (nbrs : VoxelKey → List VoxelKey) (g : Grid) (seed n : VoxelKey) (fc : Int)
    (rs rn : VoxelRecord)
    (hseed : gridGet g seed = some rs) (hsp : rs.processed = false)
    (hse : rs.ever_free = true)
    (hnbr : nbrs seed = [n]) (hns : n ≠ seed)
    (hn : gridGet g n = some rn) (hnp : rn.processed = false)
    (hnef : rn.ever_free = false) (hnlu : rn.last_update_frame = fc)
    (_hsurr : ∀ m ∈ nbrs n, ∀ r ∈ gridGet g m,
      r.ever_free = false ∨ r.last_update_frame ≠ fc) :
    (growCluster nbrs g seed fc).2 = [seed, n] := by
  unfold growCluster
  have h2 : 2 ≤ growClusterFuel nbrs g := by
    have h1 : 1 ≤ g.length := by
      cases hg : g with
      | nil => rw [hg] at hseed; cases hseed
      | cons p rest => simp
    unfold growClusterFuel
    omega
  obtain ⟨k, hk⟩ := Nat.exists_eq_add_of_le h2
  rw [hk]
  have e1 : 2 + k = (1 + k) + 1 := by omega
  rw [e1, growClusterAux_grow hseed hsp]
  have hgn : gridGet (gridMark g seed) n = some rn := by
    rw [gridGet_gridMark_ne g seed n (fun h => hns h.symm)]
    exact hn
  have hgate : passesGate (gridMark g seed) fc n = true := by
    rw [passesGate_iff]
    exact ⟨rn, hgn, hnlu⟩
  have hfr : (if rs.ever_free = true then
      ([] : List VoxelKey) ++ (nbrs seed).filter (passesGate (gridMark g seed) fc)
      else []) = [n] := by
    rw [if_pos hse, hnbr]
    simp [hgate]
  rw [hfr]
  have e2 : 1 + k = k + 1 := by omega
  rw [e2, growClusterAux_grow hgn hnp]
  rw [if_neg (by simp [hnef]), growClusterAux_nilFrontier]
  rfl

/-- Claim C3: temporal gating — a voxel other than the seed whose
`last_update_frame` differs from the current frame counter is never added to
the cluster grown by `growCluster`, even if adjacent, ever-free and
unprocessed. -/
theorem claim_C3_temporal_gating
    (nbrs : VoxelKey → List VoxelKey) (g : Grid) (seed : VoxelKey) (fc : Int)
    (v : VoxelKey) (r : VoxelRecord)
    (hr : gridGet g v = some r) (hlu : r.last_update_frame ≠ fc)
    (hne : v ≠ seed) :
    v ∉ (growCluster nbrs g seed fc).2 := by
  intro hv
  rcases growCluster_gate nbrs g seed fc v hv with he | ⟨r2, hr2, hlu2⟩
  · exact hne he
  · rw [hr] at hr2
    injection hr2 with h2
    rw [← h2] at hlu2
    exact hlu hlu2

/-- Claim C4: idempotent visitation — within one `voxelClustering` call no
voxel is visited twice: the concatenation of all clusters has no duplicates,
a voxel whose `processed` flag is already set is never added to any cluster,
and its record is left entirely unchanged by the pass. -/
theorem claim_C4_idempotent_visitation
    (nbrs : VoxelKey → List VoxelKey) (g : Grid) (seeds : List VoxelKey)
    (fc : Int) :
    (voxelClustering nbrs g seeds fc).2.flatten.Nodup ∧
    (∀ v r, gridGet g v = some r → r.processed = true →
      v ∉ (voxelClustering nbrs g seeds fc).2.flatten) ∧
    (∀ v r, gridGet g v = some r → r.processed = true →
      gridGet (voxelClustering nbrs g seeds fc).1 v = some r) := by
  refine ⟨?_, ?_, ?_⟩
  · rw [List.nodup_flatten]
    exact ⟨voxelClustering_each_nodup nbrs fc seeds g,
      (voxelClustering_pairwise nbrs fc seeds g).1⟩
  · intro v r hr hp hmem
    obtain ⟨⟨r1, hr1, hp1⟩, _⟩ := (voxelClustering_mem nbrs fc seeds g v).mp hmem
    rw [hr] at hr1
    injection hr1 with h2
    rw [← h2] at hp1
    rw [hp] at hp1
    cases hp1
  · intro v r hr hp
    exact evolves_processed_frozen (voxelClustering_evolves nbrs fc seeds g) hr hp

/-- Claim C5: point induction — for pairwise voxel-disjoint input clusters
whose voxels obey the map invariant (a point index appears in the point list
of at most one voxel), every point index appears in at most one output point
cluster; a voxel key missing from the block-to-index map or from the
voxel-to-point map contributes zero points; and empty point clusters are
legal outputs (one output cluster per input cluster, never dropped). -/
theorem claim_C5_inducePointClusters
    (block2index : BlockToIndex) (voxel_maps : BlockwiseVoxelMap)
    (vcs : List (List VoxelKey))
    (hdisj : List.Pairwise List.Disjoint vcs)
    (hpts : ∀ k1 ∈ vcs.flatten, ∀ k2 ∈ vcs.flatten, k1 ≠ k2 →
      ∀ p ∈ voxelPoints block2index voxel_maps k1,
      p ∉ voxelPoints block2index voxel_maps k2) :
    List.Pairwise List.Disjoint (inducePointClusters block2index voxel_maps vcs) ∧
    (inducePointClusters block2index voxel_maps vcs).length = vcs.length ∧
    (∀ k : VoxelKey, alookup block2index k.1 = none →
      voxelPoints block2index voxel_maps k = []) ∧
    (∀ (k : VoxelKey) (i : Nat) (m : List (VoxelIndex × List Nat)),
      alookup block2index k.1 = some i → voxel_maps[i]? = some m →
      alookup m k.2 = none → voxelPoints block2index voxel_maps k = []) := by
  refine ⟨?_, inducePointClusters_length _ _ _, ?_, ?_⟩
  · unfold inducePointClusters
    rw [List.pairwise_map]
    refine List.Pairwise.imp_of_mem ?_ hdisj
    intro vc1 vc2 hm1 hm2 hDj p hp1 hp2
    rw [mem_inducePointClusters] at hp1 hp2
    obtain ⟨k1, hk1, hpk1⟩ := hp1
    obtain ⟨k2, hk2, hpk2⟩ := hp2
    have hne : k1 ≠ k2 := fun he => hDj hk1 (he ▸ hk2)
    exact hpts k1 (List.mem_flatten.mpr ⟨vc1, hm1, hk1⟩)
      k2 (List.mem_flatten.mpr ⟨vc2, hm2, hk2⟩) hne p hpk1 hpk2
  · intro k h
    exact voxelPoints_no_block block2index voxel_maps k h
  · intro k i m hb hm hv
    exact voxelPoints_no_voxel block2index voxel_maps k i m hb hm hv

/-- Claim C6: `applyClusterLevelFilters` retains a cluster if and only if its
point count lies between `min_cluster_size` and `max_cluster_size`, both
bounds inclusive, and the configured defaults are 20 and 20000. -/
theorem claim_C6_filter_boundary (config : Config) (candidates : Clusters)
    (c : Cluster) :
    (c ∈ applyClusterLevelFilters config candidates ↔
      c ∈ candidates ∧ config.min_cluster_size ≤ (c.length : Int) ∧
        (c.length : Int) ≤ config.max_cluster_size) ∧
    ({} : Config).min_cluster_size = 20 ∧
    ({} : Config).max_cluster_size = 20000 :=
  ⟨mem_applyClusterLevelFilters_iff config candidates c, rfl, rfl⟩

/-- Claim C7: label monotonicity — a point index contained in some surviving
cluster gets its cluster-level dynamic label set (all other metadata kept), a
point whose dynamic label was already set keeps it, and a point in no
surviving cluster keeps exactly its previous metadata entry. -/
theorem claim_C7_label_monotonicity (clusters : Clusters) (info : CloudInfo)
    (i : Nat) (p : PointInfo) (hp : info[i]? = some p) :
    ((∃ c ∈ clusters, i ∈ c) →
      (setClusterLevelDynamicFlagOfallPoints clusters info)[i]? =
        some { p with cluster_level_dynamic := true }) ∧
    ((∀ c ∈ clusters, i ∉ c) →
      (setClusterLevelDynamicFlagOfallPoints clusters info)[i]? = some p) ∧
    (p.cluster_level_dynamic = true →
      ∃ p2, (setClusterLevelDynamicFlagOfallPoints clusters info)[i]? = some p2 ∧
        p2.cluster_level_dynamic = true) := by
  refine ⟨?_, ?_, ?_⟩
  · intro hmem
    rw [setFlags_getElem, if_pos hmem, hp]
    rfl
  · intro hnone
    have hno : ¬ ∃ c ∈ clusters, i ∈ c := by
      rintro ⟨c, hc, hic⟩
      exact hnone c hc hic
    rw [setFlags_getElem, if_neg hno, hp]
  · intro hdyn
    by_cases hmem : ∃ c ∈ clusters, i ∈ c
    · exact ⟨{ p with cluster_level_dynamic := true },
        by rw [setFlags_getElem, if_pos hmem, hp]; rfl, rfl⟩
    · exact ⟨p, by rw [setFlags_getElem, if_neg hmem, hp], hdyn⟩

/-- Claim C8: `performClustering` mutates only the per-voxel
`processed`/`dynamic` flags and the per-point cluster-level dynamic labels:
no voxel is allocated or dropped, every surviving voxel keeps its
`ever_free`, `last_update_frame` and `occupied_this_frame` fields, the cloud
info keeps its length, every entry keeps its other metadata, and dynamic
labels are never cleared. The index maps, seed list and cloud are consumed
read-only. -/
theorem claim_C8_read_only (config : Config) (nbrs : VoxelKey → List VoxelKey)
    (g : Grid) (block2index : BlockToIndex) (voxel_maps : BlockwiseVoxelMap)
    (seeds : List VoxelKey) (cloud : Cloud) (info : CloudInfo) (fc : Int) :
    (∀ v, gridGet (performClustering config nbrs g block2index voxel_maps seeds
        cloud info fc).2.1 v = none ↔ gridGet g v = none) ∧
    (∀ (v : VoxelKey) (r2 : VoxelRecord),
      gridGet (performClustering config nbrs g block2index voxel_maps
        seeds cloud info fc).2.1 v = some r2 →
      ∃ r, gridGet g v = some r ∧ r2.ever_free = r.ever_free ∧
        r2.last_update_frame = r.last_update_frame ∧
        r2.occupied_this_frame = r.occupied_this_frame) ∧
    (performClustering config nbrs g block2index voxel_maps seeds cloud info
      fc).2.2.length = info.length ∧
    (∀ (i : Nat) (p2 : PointInfo),
      (performClustering config nbrs g block2index voxel_maps seeds
        cloud info fc).2.2[i]? = some p2 →
      ∃ p : PointInfo, info[i]? = some p ∧
        p2.ever_free_level_dynamic = p.ever_free_level_dynamic ∧
        (p.cluster_level_dynamic = true → p2.cluster_level_dynamic = true)) := by
  refine ⟨?_, ?_, ?_, ?_⟩
  · intro v
    exact evolves_none_iff (voxelClustering_evolves nbrs fc seeds g) v
  · intro v r2 h
    exact evolves_fields (voxelClustering_evolves nbrs fc seeds g) h
  · exact setFlags_length _ info
  · intro i p2 h
    have h2 : (setClusterLevelDynamicFlagOfallPoints
        (applyClusterLevelFilters config (inducePointClusters block2index
          voxel_maps (voxelClustering nbrs g seeds fc).2)) info)[i]? =
        some p2 := h
    rw [setFlags_getElem] at h2
    by_cases hmem : ∃ c ∈ applyClusterLevelFilters config
        (inducePointClusters block2index voxel_maps
          (voxelClustering nbrs g seeds fc).2), i ∈ c
    · rw [if_pos hmem] at h2
      cases hpi : info[i]? with
      | none => rw [hpi] at h2; cases h2
      | some p =>
        rw [hpi] at h2
        injection h2 with h3
        exact ⟨p, rfl, by rw [← h3], fun _ => by rw [← h3]⟩
    · rw [if_neg hmem] at h2
      exact ⟨p2, h2, rfl, fun hd => hd⟩

/-- Claim C9: an empty seed list yields an empty cluster collection, an
unchanged grid, and a completely unmutated cloud info. -/
theorem claim_C9_empty_seeds (config : Config) (nbrs : VoxelKey → List VoxelKey)
    (g : Grid) (block2index : BlockToIndex) (voxel_maps : BlockwiseVoxelMap)
    (cloud : Cloud) (info : CloudInfo) (fc : Int) :
    performClustering config nbrs g block2index voxel_maps [] cloud info fc =
      ([], g, info) := rfl

/-- Claim C10: every public operation of `Clustering` leaves the
configuration unchanged (all member functions are const), and the size
thresholds applied by `performClustering` in every frame are exactly the
configured `min_cluster_size` and `max_cluster_size` fixed at construction. -/
theorem claim_C10_config_fixed (self : Clustering)
    (nbrs : VoxelKey → List VoxelKey) (g : Grid) (block2index : BlockToIndex)
    (voxel_maps : BlockwiseVoxelMap) (seeds : List VoxelKey) (cloud : Cloud)
    (info : CloudInfo) (fc : Int) (candidates : Clusters) (clusters : Clusters)
    (vc : List (List VoxelKey)) (seed : VoxelKey) :
    (self.performClustering nbrs g block2index voxel_maps seeds cloud info
      fc).1 = self ∧
    (self.voxelClustering nbrs g seeds fc).1 = self ∧
    (self.growCluster nbrs g seed fc).1 = self ∧
    (self.inducePointClusters block2index voxel_maps vc).1 = self ∧
    (self.applyClusterLevelFilters candidates).1 = self ∧
    (self.setClusterLevelDynamicFlagOfallPoints clusters info).1 = self ∧
    (∀ c ∈ (self.performClustering nbrs g block2index voxel_maps seeds cloud
        info fc).2.1,
      self.config.min_cluster_size ≤ (c.length : Int) ∧
        (c.length : Int) ≤ self.config.max_cluster_size) := by
  refine ⟨rfl, rfl, rfl, rfl, rfl, rfl, ?_⟩
  intro c hc
  exact ((mem_applyClusterLevelFilters_iff self.config _ c).mp hc).2

/-! ### Concrete frames used to instantiate the claim theorems -/

def wSeed : VoxelKey := ((0, 0, 0), (0, 0, 0))

def wN : VoxelKey := ((0, 0, 0), (1, 0, 0))

def wM : VoxelKey := ((0, 0, 0), (2, 0, 0))

def wQ : VoxelKey := ((0, 0, 0), (3, 0, 0))

def wSeedRec : VoxelRecord := ⟨true, true, false, false, 5⟩

def wNRec : VoxelRecord := ⟨true, false, false, false, 5⟩

def wMRec : VoxelRecord := ⟨false, false, false, false, 3⟩

def wQRec : VoxelRecord := ⟨false, true, false, false, 3⟩

def wPRec : VoxelRecord := ⟨true, true, true, false, 5⟩

def wGrid : Grid := [(wSeed, wSeedRec), (wN, wNRec), (wM, wMRec)]

def wNbrs : VoxelKey → List VoxelKey := fun k =>
  if k = wSeed then [wN] else if k = wN then [wM] else []

def w3Grid : Grid := [(wSeed, wSeedRec), (wQ, wQRec)]

def w3Nbrs : VoxelKey → List VoxelKey := fun k =>
  if k = wSeed then [wQ] else []

def w4Grid : Grid := [(wSeed, wSeedRec), (wQ, wPRec)]

def wB2i : BlockToIndex := [((0, 0, 0), 0)]

def wBw : BlockwiseVoxelMap := [[((0, 0, 0), [0, 1]), ((1, 0, 0), [2])]]

def wVcs : List (List VoxelKey) := [[wSeed], [wN]]

def wInfo : CloudInfo := [⟨false, false⟩, ⟨true, false⟩]

def wInfo8 : CloudInfo := [⟨false, false⟩]

def wClustering : Clustering := ⟨⟨1, 10⟩⟩

/-- Witness for claim C1 on a concrete three-voxel frame. -/
theorem claim_C1_witness :
    List.Pairwise List.Disjoint (voxelClustering wNbrs wGrid [wSeed] 5).2 ∧
    (∀ v ∈ (voxelClustering wNbrs wGrid [wSeed] 5).2.flatten,
      v ∈ [wSeed] ∨ ∃ r, gridGet wGrid v = some r ∧ r.ever_free = false) ∧
    (∀ s ∈ [wSeed], s ∈ (voxelClustering wNbrs wGrid [wSeed] 5).2.flatten) ∧
    (∀ c ∈ (voxelClustering wNbrs wGrid [wSeed] 5).2, c ≠ []) :=
  claim_C1_voxelClustering_disjoint_cover wNbrs wGrid [wSeed] 5
    (by decide) (by decide) (by decide)

/-- Witness for claim C2: the concrete cluster stops at the non-ever-free
neighbor. -/
theorem claim_C2_witness : (growCluster wNbrs wGrid wSeed 5).2 = [wSeed, wN] :=
  claim_C2_propagation_asymmetry wNbrs wGrid wSeed wN 5 wSeedRec wNRec
    (by decide) (by decide) (by decide) (by decide) (by decide) (by decide)
    (by decide) (by decide) (by decide) (by decide)

/-- Witness for claim C3: a stale ever-free unprocessed neighbor stays out of
the cluster. -/
theorem claim_C3_witness : wQ ∉ (growCluster w3Nbrs w3Grid wSeed 5).2 :=
  claim_C3_temporal_gating w3Nbrs w3Grid wSeed 5 wQ wQRec
    (by decide) (by decide) (by decide)

/-- Witness for claim C4: an already-processed voxel joins no cluster. -/
theorem claim_C4_witness : wQ ∉ (voxelClustering wNbrs w4Grid [wSeed] 5).2.flatten :=
  (claim_C4_idempotent_visitation wNbrs w4Grid [wSeed] 5).2.1 wQ wPRec
    (by decide) (by decide)

/-- Witness for claim C5 on concrete disjoint voxel clusters and point maps. -/
theorem claim_C5_witness :
    List.Pairwise List.Disjoint (inducePointClusters wB2i wBw wVcs) ∧
    (inducePointClusters wB2i wBw wVcs).length = wVcs.length ∧
    (∀ k : VoxelKey, alookup wB2i k.1 = none → voxelPoints wB2i wBw k = []) ∧
    (∀ (k : VoxelKey) (i : Nat) (m : List (VoxelIndex × List Nat)),
      alookup wB2i k.1 = some i → wBw[i]? = some m →
      alookup m k.2 = none → voxelPoints wB2i wBw k = []) :=
  claim_C5_inducePointClusters wB2i wBw wVcs
    (by
      refine List.pairwise_cons.mpr ⟨?_, List.pairwise_singleton _ _⟩
      intro c hc
      rw [List.mem_singleton] at hc
      subst hc
      intro a ha hb
      rw [List.mem_singleton] at ha hb
      rw [ha] at hb
      exact absurd hb (by decide))
    (by decide)

/-- Witness for claim C6 at the filter boundaries. -/
theorem claim_C6_witness :
    ([0, 1] ∈ applyClusterLevelFilters ⟨2, 3⟩ [[0, 1], [9]] ↔
      [0, 1] ∈ ([[0, 1], [9]] : Clusters) ∧
        (⟨2, 3⟩ : Config).min_cluster_size ≤ (([0, 1] : Cluster).length : Int) ∧
        (([0, 1] : Cluster).length : Int) ≤ (⟨2, 3⟩ : Config).max_cluster_size) ∧
    ({} : Config).min_cluster_size = 20 ∧
    ({} : Config).max_cluster_size = 20000 :=
  claim_C6_filter_boundary ⟨2, 3⟩ [[0, 1], [9]] [0, 1]

/-- Witness for claim C7: point 0 (in the surviving cluster) gets its label
set, point 1 (outside) keeps its already-set label untouched. -/
theorem claim_C7_witness :
    (setClusterLevelDynamicFlagOfallPoints [[0]] wInfo)[0]? = some ⟨true, false⟩ ∧
    (setClusterLevelDynamicFlagOfallPoints [[0]] wInfo)[1]? = some ⟨true, false⟩ :=
  ⟨(claim_C7_label_monotonicity [[0]] wInfo 0 ⟨false, false⟩ (by decide)).1
      ⟨[0], by decide, by decide⟩,
   (claim_C7_label_monotonicity [[0]] wInfo 1 ⟨true, false⟩ (by decide)).2.1
      (by decide)⟩

/-- Witness for claim C8: the single labeled point keeps its other metadata. -/
theorem claim_C8_witness :
    ∃ p : PointInfo, wInfo8[0]? = some p ∧
      (⟨true, false⟩ : PointInfo).ever_free_level_dynamic =
        p.ever_free_level_dynamic ∧
      (p.cluster_level_dynamic = true →
        (⟨true, false⟩ : PointInfo).cluster_level_dynamic = true) :=
  (claim_C8_read_only ⟨1, 10⟩ wNbrs wGrid wB2i wBw [wSeed] [] wInfo8 5).2.2.2
    0 ⟨true, false⟩ (by decide)

/-- Witness for claim C10: the surviving concrete cluster obeys the
construction-time thresholds. -/
theorem claim_C10_witness :
    wClustering.config.min_cluster_size ≤ (([0, 1, 2] : Cluster).length : Int) ∧
    (([0, 1, 2] : Cluster).length : Int) ≤ wClustering.config.max_cluster_size :=
  (claim_C10_config_fixed wClustering wNbrs wGrid wB2i wBw [wSeed] [] wInfo8 5
    [] [] [] wSeed).2.2.2.2.2.2 [0, 1, 2] (by decide)

end MotionDetection
